import Mathlib

/-!
Verification of the scoring engine of the seo-audit-checklist repository
(`src/lib/scoring.ts`): `calculateCategoryScore`, `calculateOverallScore`
and `getScoreRating`, shallowly embedded in Lean 4.

Embedding choices:
* JS numbers are modelled as exact rationals (`ℚ`); the weight and score
  accumulators of `calculateCategoryScore` only ever hold natural numbers,
  so they are modelled as `ℕ`.
* A `Record<string, CheckStatus>` is modelled as a lookup function
  `String → Option CheckStatus`: `none` is a missing key (JS `undefined`),
  and the TS type `CheckStatus = 'pass' | 'fail' | null` contributes the
  explicit `nullStatus` sentinel.
* JS `Math.round x` equals `⌊x + 1/2⌋` for every finite `x` (half-way
  cases round toward positive infinity); `jsRound` is that function on `ℚ`.
-/

namespace SeoAudit

/-- TS union `'critical' | 'high' | 'medium' | 'low'` (field `importance`). -/
inductive Importance where
  | critical
  | high
  | medium
  | low
deriving DecidableEq, Repr

/-- TS type `CheckStatus = 'pass' | 'fail' | null` from `CheckItem.tsx`.
`nullStatus` is the explicit unanswered sentinel (`null`); a missing map key
(JS `undefined`) is modelled as `none` at the lookup site. -/
inductive CheckStatus where
  | pass
  | fail
  | nullStatus
deriving DecidableEq, Repr

/-- TS `interface Check { id: string; importance: ... }` from `scoring.ts`. -/
structure Check where
  id : String
  importance : Importance
deriving DecidableEq, Repr

/-- The category shape consumed by `calculateOverallScore`:
`{ id: string; weight: number; checks: Check[] }`. -/
structure Category where
  id : String
  weight : ℚ
  checks : List Check
deriving DecidableEq, Repr

/-- A status map `Record<string, CheckStatus>`: lookup by key, `none` when
the key is absent. -/
def StatusMap : Type := String → Option CheckStatus

/-- `const importanceMultipliers = { critical: 4, high: 3, medium: 2, low: 1 }`. -/
def importanceMultipliers : Importance → ℕ
  | Importance.critical => 4
  | Importance.high => 3
  | Importance.medium => 2
  | Importance.low => 1

/-- `const statusScores = { pass: 1, fail: 0 }`.  The `nullStatus` case is
never consulted by the engine (null statuses are skipped before the lookup);
the TS object simply has no such key. -/
def statusScores : CheckStatus → ℕ
  | CheckStatus.pass => 1
  | CheckStatus.fail => 0
  | CheckStatus.nullStatus => 0

/-- JS `Math.round` on exact rationals: `⌊q + 1/2⌋` (half-way cases toward
positive infinity). -/
def jsRound (q : ℚ) : ℤ :=
  ⌊q + 1 / 2⌋

/-- The body of the `for (const check of checks)` loop of
`calculateCategoryScore`, acting on the accumulator
`(totalWeight, earnedWeight, hasCompletedChecks)`. -/
def categoryAcc (checkStatuses : StatusMap) (a : ℕ × ℕ × Bool) (check : Check) :
    ℕ × ℕ × Bool :=
  match checkStatuses check.id with
  | none => a
  | some CheckStatus.nullStatus => a
  | some status =>
      let weight := importanceMultipliers check.importance
      let score := statusScores status
      (a.1 + weight, a.2.1 + weight * score, true)

/-- `calculateCategoryScore(checks, checkStatuses)` from `scoring.ts`:
returns `Math.round((earnedWeight / totalWeight) * 100)` unless no check was
completed or the total weight is zero, in which case it returns `null`. -/
def calculateCategoryScore (checks : List Check) (checkStatuses : StatusMap) :
    Option ℤ :=
  let a := checks.foldl (categoryAcc checkStatuses) (0, 0, false)
  if a.2.2 = false ∨ a.1 = 0 then none
  else some (jsRound (((a.2.1 : ℚ) / (a.1 : ℚ)) * 100))

/-- The body of the `for (const category of categories)` loop of
`calculateOverallScore`, acting on `(totalWeight, weightedScore, hasScores)`. -/
def overallAcc (checkStatuses : StatusMap) (a : ℚ × ℚ × Bool) (category : Category) :
    ℚ × ℚ × Bool :=
  match calculateCategoryScore category.checks checkStatuses with
  | none => a
  | some categoryScore =>
      (a.1 + category.weight, a.2.1 + ((categoryScore : ℚ) / 100) * category.weight, true)

/-- `calculateOverallScore(categories, checkStatuses)` from `scoring.ts`. -/
def calculateOverallScore (categories : List Category) (checkStatuses : StatusMap) :
    Option ℤ :=
  let a := categories.foldl (overallAcc checkStatuses) (0, 0, false)
  if a.2.2 = false ∨ a.1 = 0 then none
  else some (jsRound ((a.2.1 / a.1) * 100))

/-- The record returned by `getScoreRating`. -/
structure Rating where
  label : String
  color : String
  bgColor : String
deriving DecidableEq, Repr

/-- `getScoreRating(score)` from `scoring.ts`. -/
def getScoreRating (score : ℚ) : Rating :=
  if score ≥ 80 then
    { label := "Excellent", color := "var(--success)", bgColor := "var(--success-light)" }
  else if score ≥ 60 then
    { label := "Good", color := "var(--success)", bgColor := "var(--success-light)" }
  else if score ≥ 40 then
    { label := "Needs Improvement", color := "var(--warning)", bgColor := "var(--warning-light)" }
  else
    { label := "Poor", color := "var(--error)", bgColor := "var(--error-light)" }

/-! ## Reference definitions, written from the specification's words -/

/-- A check is answered when its status-map entry is `pass` or `fail`
(a missing entry and the `null` sentinel both mean unanswered). -/
def answered (checkStatuses : StatusMap) (c : Check) : Bool :=
  match checkStatuses c.id with
  | some CheckStatus.pass => true
  | some CheckStatus.fail => true
  | _ => false

/-- `1` if the check's status is `pass`, else `0` (spec 4.1 step 2). -/
def passScore (checkStatuses : StatusMap) (c : Check) : ℕ :=
  if checkStatuses c.id = some CheckStatus.pass then 1 else 0

/-- Spec 4.1: each answered check contributes its importance multiplier to
`totalWeight`; unanswered checks contribute nothing. -/
def refTotalWeight (checks : List Check) (m : StatusMap) : ℕ :=
  (checks.map (fun c =>
    if answered m c then importanceMultipliers c.importance else 0)).sum

/-- Spec 4.1: each answered check contributes `multiplier * (1 if pass else 0)`
to `earnedWeight`; unanswered checks contribute nothing. -/
def refEarnedWeight (checks : List Check) (m : StatusMap) : ℕ :=
  (checks.map (fun c =>
    if answered m c then importanceMultipliers c.importance * passScore m c else 0)).sum

/-- Rounding to the nearest integer with exact halves rounded away from
zero, the rounding rule named by spec 4.1. -/
def roundHalfAwayFromZero (q : ℚ) : ℤ :=
  if 0 ≤ q then ⌊q + 1 / 2⌋ else -⌊-q + 1 / 2⌋

/-- Reference category score, spec 4.1: when at least one check is answered
the result is `round(100 * earnedWeight / totalWeight)`, otherwise "no score". -/
def refCategoryScore (checks : List Check) (m : StatusMap) : Option ℤ :=
  if checks.any (answered m) then
    some (roundHalfAwayFromZero
      (100 * (refEarnedWeight checks m : ℚ) / (refTotalWeight checks m : ℚ)))
  else none

/-- The scored categories, spec 4.2 step 2: each category whose category
score is not "no score", paired as (weight, score). -/
def scoredList (categories : List Category) (m : StatusMap) : List (ℚ × ℤ) :=
  categories.filterMap (fun cat =>
    (calculateCategoryScore cat.checks m).map (fun s => (cat.weight, s)))

/-- Spec 4.2: sum of the weights of the scored categories. -/
def refOverallWeight (categories : List Category) (m : StatusMap) : ℚ :=
  ((scoredList categories m).map Prod.fst).sum

/-- Spec 4.2: `sum(weight_i * score_i / 100)` over the scored categories. -/
def refWeightedScore (categories : List Category) (m : StatusMap) : ℚ :=
  ((scoredList categories m).map (fun p => p.1 * ((p.2 : ℚ) / 100))).sum

/-- Reference overall score, spec 4.2: "no score" when no category produced
a score or the weights of the scored categories sum to zero, otherwise the
weighted average times 100, rounded as in 4.1. -/
def refOverallScore (categories : List Category) (m : StatusMap) : Option ℤ :=
  if scoredList categories m = [] ∨ refOverallWeight categories m = 0 then none
  else some (roundHalfAwayFromZero
    (refWeightedScore categories m / refOverallWeight categories m * 100))

/-- The status map updated at one key: JS `statuses[k] = v`. -/
def statusSet (m : StatusMap) (k : String) (v : CheckStatus) : StatusMap :=
  fun x => if x = k then some v else m x

/-- The status map with one key removed: JS `delete statuses[k]`. -/
def statusRemove (m : StatusMap) (k : String) : StatusMap :=
  fun x => if x = k then none else m x

/-! ## Concrete example data -/

/-- The category of spec §8: checks `[critical, low, low, low, low]`. -/
def exChecksC1 : List Check :=
  [⟨"c1", Importance.critical⟩, ⟨"c2", Importance.low⟩, ⟨"c3", Importance.low⟩,
   ⟨"c4", Importance.low⟩, ⟨"c5", Importance.low⟩]

/-- Statuses for `exChecksC1`: the critical check fails, the four lows pass. -/
def exMapC1 : StatusMap := fun x =>
  if x = "c1" then some CheckStatus.fail
  else if x = "c2" then some CheckStatus.pass
  else if x = "c3" then some CheckStatus.pass
  else if x = "c4" then some CheckStatus.pass
  else if x = "c5" then some CheckStatus.pass
  else none

/-- Two categories with weights 20 and 10. -/
def exCatsC2 : List Category :=
  [⟨"A", 20, [⟨"a1", Importance.low⟩]⟩, ⟨"B", 10, [⟨"b1", Importance.low⟩]⟩]

/-- Statuses for `exCatsC2`: category A answered, category B untouched. -/
def exMapC2 : StatusMap := fun x =>
  if x = "a1" then some CheckStatus.pass else none

/-- Two unanswered checks (one with an explicit `null` entry). -/
def exChecksC4 : List Check :=
  [⟨"x", Importance.medium⟩, ⟨"y", Importance.low⟩]

/-- Statuses for `exChecksC4`: `y` has the `null` sentinel, `x` has no entry. -/
def exMapC4 : StatusMap := fun x =>
  if x = "y" then some CheckStatus.nullStatus else none

/-- A single critical check. -/
def exChecksC5 : List Check :=
  [⟨"a", Importance.critical⟩]

/-- One category of weight 1 holding `exChecksC5`. -/
def exCatsC5 : List Category :=
  [⟨"cat", 1, exChecksC5⟩]

/-- Statuses for `exChecksC5`: the check fails. -/
def exMapC5 : StatusMap := fun x =>
  if x = "a" then some CheckStatus.fail else none

/-- Checks whose weighted fraction is exactly 37.5%:
critical (4) failed, high (3) passed, low (1) failed. -/
def exChecksC7 : List Check :=
  [⟨"a", Importance.critical⟩, ⟨"b", Importance.high⟩, ⟨"c", Importance.low⟩]

/-- One category of weight 1 holding `exChecksC7`. -/
def exCatsC7 : List Category :=
  [⟨"tie", 1, exChecksC7⟩]

/-- Statuses for `exChecksC7`: fail, pass, fail. -/
def exMapC7 : StatusMap := fun x =>
  if x = "a" then some CheckStatus.fail
  else if x = "b" then some CheckStatus.pass
  else if x = "c" then some CheckStatus.fail
  else none

/-- Category A of weight 20 whose checks score 80, category B of weight 10
untouched (the scenario of spec §8). -/
def exCatsC8 : List Category :=
  [⟨"A", 20, [⟨"p1", Importance.low⟩, ⟨"p2", Importance.low⟩, ⟨"p3", Importance.low⟩,
    ⟨"p4", Importance.low⟩, ⟨"p5", Importance.low⟩]⟩,
   ⟨"B", 10, [⟨"q1", Importance.low⟩]⟩]

/-- Statuses for `exCatsC8`: four of A's five checks pass, one fails, B untouched. -/
def exMapC8 : StatusMap := fun x =>
  if x = "p1" then some CheckStatus.pass
  else if x = "p2" then some CheckStatus.pass
  else if x = "p3" then some CheckStatus.pass
  else if x = "p4" then some CheckStatus.pass
  else if x = "p5" then some CheckStatus.fail
  else none

/-! ## Helper lemmas -/

lemma categoryAcc_foldl (m : StatusMap) (checks : List Check) (t e : ℕ) (b : Bool) :
    checks.foldl (categoryAcc m) (t, e, b) =
      (t + refTotalWeight checks m, e + refEarnedWeight checks m,
        b || checks.any (answered m)) := by
  induction checks generalizing t e b with
  | nil => simp [refTotalWeight, refEarnedWeight]
  | cons c cs ih =>
      simp only [List.foldl_cons, List.any_cons]
      cases h : m c.id with
      | none =>
          have ha : answered m c = false := by simp [answered, h]
          simp [categoryAcc, h, ha, refTotalWeight, refEarnedWeight, ih]
      | some st =>
          cases st with
          | nullStatus =>
              have ha : answered m c = false := by simp [answered, h]
              simp [categoryAcc, h, ha, refTotalWeight, refEarnedWeight, ih]
          | pass =>
              have ha : answered m c = true := by simp [answered, h]
              have hp : passScore m c = 1 := by simp [passScore, h]
              simp only [categoryAcc, h, ih, refTotalWeight, refEarnedWeight,
                List.map_cons, List.sum_cons, ha, hp, if_true, statusScores,
                Prod.mk.injEq]
              refine ⟨by omega, by omega, by simp⟩
          | fail =>
              have ha : answered m c = true := by simp [answered, h]
              have hp : passScore m c = 0 := by simp [passScore, h]
              simp only [categoryAcc, h, ih, refTotalWeight, refEarnedWeight,
                List.map_cons, List.sum_cons, ha, hp, if_true, statusScores,
                Prod.mk.injEq]
              refine ⟨by omega, by omega, by simp⟩

lemma importanceMultipliers_pos (i : Importance) : 0 < importanceMultipliers i := by
  cases i <;> simp [importanceMultipliers]

lemma refTotalWeight_pos (m : StatusMap) (checks : List Check)
    (h : checks.any (answered m) = true) : 0 < refTotalWeight checks m := by
  induction checks with
  | nil => simp at h
  | cons c cs ih =>
      simp only [List.any_cons, Bool.or_eq_true] at h
      simp only [refTotalWeight, List.map_cons, List.sum_cons]
      rcases h with h | h
      · have := importanceMultipliers_pos c.importance
        simp only [h, if_true]
        omega
      · have := ih h
        simp only [refTotalWeight] at this
        omega

lemma roundHalfAwayFromZero_of_nonneg {q : ℚ} (h : 0 ≤ q) :
    roundHalfAwayFromZero q = jsRound q := by
  simp [roundHalfAwayFromZero, jsRound, h]

lemma calculateCategoryScore_eq_ref (checks : List Check) (m : StatusMap) :
    calculateCategoryScore checks m = refCategoryScore checks m := by
  unfold calculateCategoryScore refCategoryScore
  rw [categoryAcc_foldl]
  simp only [Nat.zero_add, Bool.false_or]
  cases hany : checks.any (answered m) with
  | false => simp
  | true =>
      have hT := refTotalWeight_pos m checks hany
      have hq : (0:ℚ) ≤ 100 * (refEarnedWeight checks m : ℚ) / (refTotalWeight checks m : ℚ) :=
        div_nonneg (by positivity) (Nat.cast_nonneg _)
      rw [if_neg (by simp only [Bool.true_eq_false, false_or]; omega)]
      rw [if_pos rfl]
      rw [roundHalfAwayFromZero_of_nonneg hq]
      congr 1
      ring_nf

lemma jsRound_nonneg {q : ℚ} (h : 0 ≤ q) : 0 ≤ jsRound q := by
  unfold jsRound
  exact Int.le_floor.2 (by push_cast; linarith)

lemma calculateCategoryScore_nonneg {checks : List Check} {m : StatusMap} {s : ℤ}
    (h : calculateCategoryScore checks m = some s) : 0 ≤ s := by
  rw [calculateCategoryScore_eq_ref, refCategoryScore] at h
  by_cases hany : checks.any (answered m) = true
  · rw [if_pos hany] at h
    have hq : (0:ℚ) ≤ 100 * (refEarnedWeight checks m : ℚ) / (refTotalWeight checks m : ℚ) :=
      div_nonneg (by positivity) (Nat.cast_nonneg _)
    rw [roundHalfAwayFromZero_of_nonneg hq] at h
    injection h with h
    exact h ▸ jsRound_nonneg hq
  · rw [if_neg hany] at h
    simp at h

lemma overallAcc_foldl (m : StatusMap) (cats : List Category) (w s : ℚ) (b : Bool) :
    cats.foldl (overallAcc m) (w, s, b) =
      (w + refOverallWeight cats m, s + refWeightedScore cats m,
        b || !(scoredList cats m).isEmpty) := by
  induction cats generalizing w s b with
  | nil => simp [refOverallWeight, refWeightedScore, scoredList]
  | cons cat cs ih =>
      simp only [List.foldl_cons]
      cases h : calculateCategoryScore cat.checks m with
      | none =>
          simp [overallAcc, h, scoredList, refOverallWeight, refWeightedScore, ih]
      | some sc =>
          simp only [overallAcc, h, ih, scoredList, refOverallWeight, refWeightedScore,
            List.filterMap_cons, Option.map_some', List.map_cons, List.sum_cons,
            List.isEmpty_cons, Prod.mk.injEq]
          refine ⟨by ring, by ring, by simp⟩

lemma scoredList_mem {cats : List Category} {m : StatusMap} {p : ℚ × ℤ}
    (hp : p ∈ scoredList cats m) :
    ∃ cat ∈ cats, p.1 = cat.weight ∧ calculateCategoryScore cat.checks m = some p.2 := by
  unfold scoredList at hp
  rcases List.mem_filterMap.1 hp with ⟨cat, hcat, hf⟩
  rcases Option.map_eq_some'.1 hf with ⟨sc, hsc, hps⟩
  exact ⟨cat, hcat, by rw [← hps], by rw [hsc, ← hps]⟩

lemma refOverallWeight_nonneg {cats : List Category} {m : StatusMap}
    (hw : ∀ cat ∈ cats, 0 ≤ cat.weight) : 0 ≤ refOverallWeight cats m := by
  apply List.sum_nonneg
  intro x hx
  rcases List.mem_map.1 hx with ⟨p, hp, hpx⟩
  rcases scoredList_mem hp with ⟨cat, hcat, hw1, _⟩
  rw [← hpx, hw1]
  exact hw cat hcat

lemma refWeightedScore_nonneg {cats : List Category} {m : StatusMap}
    (hw : ∀ cat ∈ cats, 0 ≤ cat.weight) : 0 ≤ refWeightedScore cats m := by
  apply List.sum_nonneg
  intro x hx
  rcases List.mem_map.1 hx with ⟨p, hp, hpx⟩
  rcases scoredList_mem hp with ⟨cat, hcat, hw1, hs⟩
  have h2 : (0:ℚ) ≤ (p.2 : ℚ) := by
    exact_mod_cast calculateCategoryScore_nonneg hs
  rw [← hpx]
  exact mul_nonneg (hw1 ▸ hw cat hcat) (by positivity)

lemma calculateOverallScore_eq_ref (cats : List Category) (m : StatusMap)
    (hw : ∀ cat ∈ cats, 0 ≤ cat.weight) :
    calculateOverallScore cats m = refOverallScore cats m := by
  unfold calculateOverallScore refOverallScore
  rw [overallAcc_foldl]
  simp only [zero_add, Bool.false_or]
  by_cases hempty : scoredList cats m = []
  · simp [hempty, refOverallWeight, refWeightedScore]
  · have hne : (scoredList cats m).isEmpty = false := by
      cases hsl : scoredList cats m with
      | nil => exact absurd hsl hempty
      | cons a l => rfl
    rw [hne]
    by_cases hW : refOverallWeight cats m = 0
    · rw [if_pos (Or.inr hW), if_pos (Or.inr hW)]
    · rw [if_neg (by simp [hW]), if_neg (by simp [hempty, hW])]
      have hq : (0:ℚ) ≤ refWeightedScore cats m / refOverallWeight cats m * 100 :=
        mul_nonneg (div_nonneg (refWeightedScore_nonneg hw) (refOverallWeight_nonneg hw))
          (by norm_num)
      rw [roundHalfAwayFromZero_of_nonneg hq]

lemma categoryAcc_foldl_congr {m1 m2 : StatusMap} (checks : List Check)
    (h : ∀ c ∈ checks, m1 c.id = m2 c.id) (a : ℕ × ℕ × Bool) :
    checks.foldl (categoryAcc m1) a = checks.foldl (categoryAcc m2) a := by
  induction checks generalizing a with
  | nil => rfl
  | cons c cs ih =>
      simp only [List.foldl_cons]
      rw [show categoryAcc m1 a c = categoryAcc m2 a c by
        unfold categoryAcc; rw [h c (List.mem_cons_self c cs)]]
      exact ih (fun x hx => h x (List.mem_cons_of_mem _ hx)) _

lemma calculateCategoryScore_congr {m1 m2 : StatusMap} (checks : List Check)
    (h : ∀ c ∈ checks, m1 c.id = m2 c.id) :
    calculateCategoryScore checks m1 = calculateCategoryScore checks m2 := by
  unfold calculateCategoryScore
  rw [categoryAcc_foldl_congr checks h]

lemma overallAcc_foldl_congr {m1 m2 : StatusMap} (cats : List Category)
    (h : ∀ cat ∈ cats, ∀ c ∈ cat.checks, m1 c.id = m2 c.id) (a : ℚ × ℚ × Bool) :
    cats.foldl (overallAcc m1) a = cats.foldl (overallAcc m2) a := by
  induction cats generalizing a with
  | nil => rfl
  | cons cat cs ih =>
      simp only [List.foldl_cons]
      rw [show overallAcc m1 a cat = overallAcc m2 a cat by
        unfold overallAcc
        rw [calculateCategoryScore_congr cat.checks (h cat (List.mem_cons_self cat cs))]]
      exact ih (fun x hx => h x (List.mem_cons_of_mem _ hx)) _

lemma calculateOverallScore_congr {m1 m2 : StatusMap} (cats : List Category)
    (h : ∀ cat ∈ cats, ∀ c ∈ cat.checks, m1 c.id = m2 c.id) :
    calculateOverallScore cats m1 = calculateOverallScore cats m2 := by
  unfold calculateOverallScore
  rw [overallAcc_foldl_congr cats h]

lemma jsRound_mono {q r : ℚ} (h : q ≤ r) : jsRound q ≤ jsRound r :=
  Int.floor_le_floor (by linarith)

lemma answered_statusSet_pass {m : StatusMap} {k : String}
    (hm : m k = some CheckStatus.fail) (c : Check) :
    answered (statusSet m k CheckStatus.pass) c = answered m c := by
  unfold answered statusSet
  by_cases h : c.id = k
  · simp [h, hm]
  · simp [h]

lemma refTotalWeight_statusSet_pass {m : StatusMap} {k : String}
    (hm : m k = some CheckStatus.fail) (checks : List Check) :
    refTotalWeight checks (statusSet m k CheckStatus.pass) = refTotalWeight checks m := by
  unfold refTotalWeight
  congr 1
  apply List.map_congr_left
  intro c _
  rw [answered_statusSet_pass hm]

lemma refEarnedWeight_statusSet_pass {m : StatusMap} {k : String}
    (hm : m k = some CheckStatus.fail) (checks : List Check) :
    refEarnedWeight checks m ≤ refEarnedWeight checks (statusSet m k CheckStatus.pass) := by
  unfold refEarnedWeight
  apply List.sum_le_sum
  intro c _
  rw [answered_statusSet_pass hm]
  by_cases hc : answered m c = true
  · simp only [hc, if_true]
    apply Nat.mul_le_mul_left
    unfold passScore statusSet
    by_cases h : c.id = k <;> simp [h, hm]
  · simp [hc]

lemma any_answered_statusSet_pass {m : StatusMap} {k : String}
    (hm : m k = some CheckStatus.fail) (checks : List Check) :
    checks.any (answered (statusSet m k CheckStatus.pass)) = checks.any (answered m) := by
  congr 1
  exact funext (answered_statusSet_pass hm)

lemma calculateCategoryScore_flip_isSome {m : StatusMap} {k : String}
    (hm : m k = some CheckStatus.fail) (checks : List Check) :
    (calculateCategoryScore checks (statusSet m k CheckStatus.pass)).isSome
      = (calculateCategoryScore checks m).isSome := by
  rw [calculateCategoryScore_eq_ref, calculateCategoryScore_eq_ref]
  unfold refCategoryScore
  rw [any_answered_statusSet_pass hm]
  cases hc : checks.any (answered m) with
  | false => simp [hc]
  | true => simp [hc]

lemma calculateCategoryScore_flip_le {m : StatusMap} {k : String}
    (hm : m k = some CheckStatus.fail) (checks : List Check) {s s' : ℤ}
    (h1 : calculateCategoryScore checks m = some s)
    (h2 : calculateCategoryScore checks (statusSet m k CheckStatus.pass) = some s') :
    s ≤ s' := by
  rw [calculateCategoryScore_eq_ref] at h1 h2
  unfold refCategoryScore at h1 h2
  rw [any_answered_statusSet_pass hm, refTotalWeight_statusSet_pass hm] at h2
  by_cases hany : checks.any (answered m) = true
  · rw [if_pos hany] at h1 h2
    injection h1 with h1
    injection h2 with h2
    have hT := refTotalWeight_pos m checks hany
    have hE := refEarnedWeight_statusSet_pass hm checks
    have hq1 : (0:ℚ) ≤ 100 * (refEarnedWeight checks m : ℚ) / (refTotalWeight checks m : ℚ) :=
      div_nonneg (by positivity) (Nat.cast_nonneg _)
    have hq2 : (0:ℚ) ≤ 100 * (refEarnedWeight checks (statusSet m k CheckStatus.pass) : ℚ) /
        (refTotalWeight checks m : ℚ) :=
      div_nonneg (by positivity) (Nat.cast_nonneg _)
    rw [← h1, ← h2, roundHalfAwayFromZero_of_nonneg hq1, roundHalfAwayFromZero_of_nonneg hq2]
    apply jsRound_mono
    gcongr
  · rw [if_neg hany] at h1
    simp at h1

lemma scoredList_cons_none {cat : Category} {cats : List Category} {m : StatusMap}
    (h : calculateCategoryScore cat.checks m = none) :
    scoredList (cat :: cats) m = scoredList cats m := by
  simp [scoredList, List.filterMap_cons, h]

lemma scoredList_cons_some {cat : Category} {cats : List Category} {m : StatusMap} {s : ℤ}
    (h : calculateCategoryScore cat.checks m = some s) :
    scoredList (cat :: cats) m = (cat.weight, s) :: scoredList cats m := by
  simp [scoredList, List.filterMap_cons, h]

lemma refOverallWeight_cons_none {cat : Category} {cats : List Category} {m : StatusMap}
    (h : calculateCategoryScore cat.checks m = none) :
    refOverallWeight (cat :: cats) m = refOverallWeight cats m := by
  unfold refOverallWeight
  rw [scoredList_cons_none h]

lemma refOverallWeight_cons_some {cat : Category} {cats : List Category} {m : StatusMap}
    {s : ℤ} (h : calculateCategoryScore cat.checks m = some s) :
    refOverallWeight (cat :: cats) m = cat.weight + refOverallWeight cats m := by
  unfold refOverallWeight
  rw [scoredList_cons_some h]
  simp

lemma refWeightedScore_cons_none {cat : Category} {cats : List Category} {m : StatusMap}
    (h : calculateCategoryScore cat.checks m = none) :
    refWeightedScore (cat :: cats) m = refWeightedScore cats m := by
  unfold refWeightedScore
  rw [scoredList_cons_none h]

lemma refWeightedScore_cons_some {cat : Category} {cats : List Category} {m : StatusMap}
    {s : ℤ} (h : calculateCategoryScore cat.checks m = some s) :
    refWeightedScore (cat :: cats) m = cat.weight * ((s : ℚ) / 100) + refWeightedScore cats m := by
  unfold refWeightedScore
  rw [scoredList_cons_some h]
  simp

lemma scoredList_flip {m : StatusMap} {k : String}
    (hm : m k = some CheckStatus.fail) (cats : List Category)
    (hw : ∀ cat ∈ cats, 0 ≤ cat.weight) :
    refOverallWeight cats (statusSet m k CheckStatus.pass) = refOverallWeight cats m ∧
    (scoredList cats (statusSet m k CheckStatus.pass)).isEmpty = (scoredList cats m).isEmpty ∧
    refWeightedScore cats m ≤ refWeightedScore cats (statusSet m k CheckStatus.pass) := by
  induction cats with
  | nil => simp [scoredList, refOverallWeight, refWeightedScore]
  | cons cat cs ih =>
      have hw' : ∀ c ∈ cs, 0 ≤ c.weight := fun c hc => hw c (List.mem_cons_of_mem _ hc)
      obtain ⟨ihW, ihE, ihS⟩ := ih hw'
      have hsome := calculateCategoryScore_flip_isSome hm cat.checks
      cases h1 : calculateCategoryScore cat.checks m with
      | none =>
          have h2 : calculateCategoryScore cat.checks (statusSet m k CheckStatus.pass) = none := by
            rw [h1] at hsome
            cases hcc : calculateCategoryScore cat.checks (statusSet m k CheckStatus.pass) with
            | none => rfl
            | some v => rw [hcc] at hsome; simp at hsome
          refine ⟨?_, ?_, ?_⟩
          · rw [refOverallWeight_cons_none h2, refOverallWeight_cons_none h1]
            exact ihW
          · rw [scoredList_cons_none h2, scoredList_cons_none h1]
            exact ihE
          · rw [refWeightedScore_cons_none h2, refWeightedScore_cons_none h1]
            exact ihS
      | some sc =>
          rw [h1] at hsome
          obtain ⟨sc', h2⟩ := Option.isSome_iff_exists.1 (by simpa using hsome)
          have hle : sc ≤ sc' := calculateCategoryScore_flip_le hm cat.checks h1 h2
          refine ⟨?_, ?_, ?_⟩
          · rw [refOverallWeight_cons_some h2, refOverallWeight_cons_some h1, ihW]
          · rw [scoredList_cons_some h2, scoredList_cons_some h1]
            simp [ihE]
          · rw [refWeightedScore_cons_some h2, refWeightedScore_cons_some h1]
            refine add_le_add ?_ ihS
            apply mul_le_mul_of_nonneg_left ?_ (hw cat (List.mem_cons_self cat cs))
            have hc : (sc : ℚ) ≤ (sc' : ℚ) := by exact_mod_cast hle
            linarith

lemma calculateOverallScore_flip_isSome {m : StatusMap} {k : String}
    (hm : m k = some CheckStatus.fail) (cats : List Category)
    (hw : ∀ cat ∈ cats, 0 ≤ cat.weight) :
    (calculateOverallScore cats (statusSet m k CheckStatus.pass)).isSome
      = (calculateOverallScore cats m).isSome := by
  obtain ⟨hW, hE, _⟩ := scoredList_flip hm cats hw
  unfold calculateOverallScore
  rw [overallAcc_foldl, overallAcc_foldl]
  simp only [zero_add, Bool.false_or]
  rw [hW, hE]
  by_cases hcond : ((!(scoredList cats m).isEmpty) = false ∨ refOverallWeight cats m = 0)
  · rw [if_pos hcond, if_pos hcond]
  · rw [if_neg hcond, if_neg hcond]
    simp only [Option.isSome_some]

lemma calculateOverallScore_flip_le {m : StatusMap} {k : String}
    (hm : m k = some CheckStatus.fail) (cats : List Category)
    (hw : ∀ cat ∈ cats, 0 ≤ cat.weight) {s s' : ℤ}
    (h1 : calculateOverallScore cats m = some s)
    (h2 : calculateOverallScore cats (statusSet m k CheckStatus.pass) = some s') :
    s ≤ s' := by
  obtain ⟨hW, hE, hS⟩ := scoredList_flip hm cats hw
  unfold calculateOverallScore at h1 h2
  rw [overallAcc_foldl] at h1 h2
  simp only [zero_add, Bool.false_or] at h1 h2
  rw [hW, hE] at h2
  by_cases hcond : ((!(scoredList cats m).isEmpty) = false ∨ refOverallWeight cats m = 0)
  · rw [if_pos hcond] at h1
    simp at h1
  · rw [if_neg hcond] at h1 h2
    injection h1 with h1
    injection h2 with h2
    push_neg at hcond
    have hWpos : 0 < refOverallWeight cats m :=
      lt_of_le_of_ne (refOverallWeight_nonneg hw) (Ne.symm hcond.2)
    rw [← h1, ← h2]
    apply jsRound_mono
    gcongr

lemma jsRound_intCast (z : ℤ) : jsRound (z : ℚ) = z := by
  unfold jsRound
  rw [Int.floor_int_add]
  norm_num

/-! ## Claim theorems -/

/-- C1: for every list of checks and every status map, `calculateCategoryScore`
equals the reference weighted average of spec 4.1 — each answered check
contributes its importance multiplier (critical=4, high=3, medium=2, low=1) to
the total weight and `multiplier * (1 if pass else 0)` to the earned weight,
unanswered checks contribute to neither, and when at least one check is
answered the result is `round(100 * earnedWeight / totalWeight)`; in
particular the category `[critical:fail, low:pass, low:pass, low:pass,
low:pass]` scores 50. -/
theorem claimC1_categoryScore_matches_reference :
    (∀ (checks : List Check) (m : StatusMap),
      calculateCategoryScore checks m = refCategoryScore checks m) ∧
    calculateCategoryScore exChecksC1 exMapC1 = some 50 := by
  refine ⟨calculateCategoryScore_eq_ref, ?_⟩
  simp [calculateCategoryScore, categoryAcc, exChecksC1, exMapC1,
    importanceMultipliers, statusScores, jsRound]
  norm_num

/-- C3: `getScoreRating` classifies scores by inclusive lower bounds — at
least 80 is "Excellent", 60 to below 80 is "Good", 40 to below 60 is "Needs
Improvement", below 40 is "Poor" (so 80, 79, 60, 59, 40, 39, 0 and 100 get
the listed labels) — and "Excellent" and "Good" carry identical colour and
background-colour role tokens despite different labels. -/
theorem claimC3_rating_thresholds (score : ℚ) :
    (80 ≤ score → getScoreRating score =
      ⟨"Excellent", "var(--success)", "var(--success-light)"⟩) ∧
    (60 ≤ score → score < 80 → getScoreRating score =
      ⟨"Good", "var(--success)", "var(--success-light)"⟩) ∧
    (40 ≤ score → score < 60 → getScoreRating score =
      ⟨"Needs Improvement", "var(--warning)", "var(--warning-light)"⟩) ∧
    (score < 40 → getScoreRating score =
      ⟨"Poor", "var(--error)", "var(--error-light)"⟩) ∧
    ((getScoreRating 80).label = "Excellent" ∧ (getScoreRating 79).label = "Good" ∧
     (getScoreRating 60).label = "Good" ∧
     (getScoreRating 59).label = "Needs Improvement" ∧
     (getScoreRating 40).label = "Needs Improvement" ∧
     (getScoreRating 39).label = "Poor" ∧ (getScoreRating 0).label = "Poor" ∧
     (getScoreRating 100).label = "Excellent") ∧
    ((getScoreRating 80).color = (getScoreRating 60).color ∧
     (getScoreRating 80).bgColor = (getScoreRating 60).bgColor) := by
  refine ⟨?_, ?_, ?_, ?_, ?_, ?_⟩
  · intro h
    unfold getScoreRating
    rw [if_pos (show score ≥ 80 from h)]
  · intro h1 h2
    unfold getScoreRating
    rw [if_neg (by intro hc; linarith), if_pos (show score ≥ 60 from h1)]
  · intro h1 h2
    unfold getScoreRating
    rw [if_neg (by intro hc; linarith), if_neg (by intro hc; linarith),
      if_pos (show score ≥ 40 from h1)]
  · intro h
    unfold getScoreRating
    rw [if_neg (by intro hc; linarith), if_neg (by intro hc; linarith),
      if_neg (by intro hc; linarith)]
  · norm_num [getScoreRating]
  · norm_num [getScoreRating]

/-- Witness for C3 at scores 85 and 45. -/
theorem claimC3_rating_thresholds_witness :
    (80 ≤ (85:ℚ) ∧ getScoreRating 85 =
      ⟨"Excellent", "var(--success)", "var(--success-light)"⟩) ∧
    (40 ≤ (45:ℚ) ∧ (45:ℚ) < 60 ∧ getScoreRating 45 =
      ⟨"Needs Improvement", "var(--warning)", "var(--warning-light)"⟩) :=
  ⟨⟨by norm_num, (claimC3_rating_thresholds 85).1 (by norm_num)⟩,
   ⟨by norm_num, by norm_num,
    (claimC3_rating_thresholds 45).2.2.1 (by norm_num) (by norm_num)⟩⟩

/-- C4: if every check in the list is unanswered — missing from the status
map or mapped to the `null` sentinel — `calculateCategoryScore` returns
"no score" (`none`), and the empty check list also returns `none`; the
function is total, so no exception is possible. -/
theorem claimC4_all_unanswered_no_score (checks : List Check) (m : StatusMap)
    (h : ∀ c ∈ checks, m c.id = none ∨ m c.id = some CheckStatus.nullStatus) :
    calculateCategoryScore checks m = none ∧ calculateCategoryScore [] m = none := by
  constructor
  · rw [calculateCategoryScore_eq_ref, refCategoryScore, if_neg]
    intro hany
    rw [List.any_eq_true] at hany
    obtain ⟨c, hc, hans⟩ := hany
    rcases h c hc with hnone | hnull
    · simp [answered, hnone] at hans
    · simp [answered, hnull] at hans
  · simp [calculateCategoryScore]

/-- Witness for C4 at a concrete all-unanswered check list. -/
theorem claimC4_all_unanswered_no_score_witness :
    (∀ c ∈ exChecksC4, exMapC4 c.id = none ∨ exMapC4 c.id = some CheckStatus.nullStatus) ∧
    calculateCategoryScore exChecksC4 exMapC4 = none := by
  have h : ∀ c ∈ exChecksC4, exMapC4 c.id = none ∨ exMapC4 c.id = some CheckStatus.nullStatus := by
    intro c hc
    fin_cases hc <;> simp [exMapC4]
  exact ⟨h, (claimC4_all_unanswered_no_score exChecksC4 exMapC4 h).1⟩

/-- C9: whenever at least one check in the list is answered, the accumulated
total weight is strictly positive (every importance multiplier is a positive
integer), so the `totalWeight == 0` branch of the "no score" guard is
unreachable; equivalently `calculateCategoryScore` returns `none` exactly
when no check in the list has a pass or fail status. -/
theorem claimC9_total_weight_positive (checks : List Check) (m : StatusMap) :
    (checks.any (answered m) = true → 0 < refTotalWeight checks m) ∧
    (calculateCategoryScore checks m = none ↔ checks.any (answered m) = false) := by
  refine ⟨refTotalWeight_pos m checks, ?_⟩
  rw [calculateCategoryScore_eq_ref, refCategoryScore]
  cases hany : checks.any (answered m) with
  | false => simp
  | true => simp

/-- Witness for C9: an answered list with positive total weight, and an
unanswered list mapped to `none`. -/
theorem claimC9_total_weight_positive_witness :
    exChecksC1.any (answered exMapC1) = true ∧
    0 < refTotalWeight exChecksC1 exMapC1 ∧
    calculateCategoryScore exChecksC4 exMapC4 = none := by
  have h1 : exChecksC1.any (answered exMapC1) = true := by
    simp [exChecksC1, exMapC1, answered]
  have h2 : exChecksC4.any (answered exMapC4) = false := by
    simp [exChecksC4, exMapC4, answered]
  exact ⟨h1, (claimC9_total_weight_positive exChecksC1 exMapC1).1 h1,
    (claimC9_total_weight_positive exChecksC4 exMapC4).2.mpr h2⟩

/-- C10: `getScoreRating` is total over all numeric inputs, not just integers
in `[0,100]`: every score below 40, including negative ones, gets the "Poor"
rating, every score at or above 80, including ones above 100, gets the
"Excellent" rating, and the result is always one of exactly four
label/colour records (the function never throws). -/
theorem claimC10_rating_total (score : ℚ) :
    (score < 40 → getScoreRating score =
      ⟨"Poor", "var(--error)", "var(--error-light)"⟩) ∧
    (80 ≤ score → getScoreRating score =
      ⟨"Excellent", "var(--success)", "var(--success-light)"⟩) ∧
    (getScoreRating score = ⟨"Excellent", "var(--success)", "var(--success-light)"⟩ ∨
     getScoreRating score = ⟨"Good", "var(--success)", "var(--success-light)"⟩ ∨
     getScoreRating score = ⟨"Needs Improvement", "var(--warning)", "var(--warning-light)"⟩ ∨
     getScoreRating score = ⟨"Poor", "var(--error)", "var(--error-light)"⟩) := by
  refine ⟨?_, ?_, ?_⟩
  · intro h
    unfold getScoreRating
    rw [if_neg (by intro hc; linarith), if_neg (by intro hc; linarith),
      if_neg (by intro hc; linarith)]
  · intro h
    unfold getScoreRating
    rw [if_pos (show score ≥ 80 from h)]
  · unfold getScoreRating
    split_ifs <;> simp

/-- Witness for C10 at scores -5 and 150. -/
theorem claimC10_rating_total_witness :
    ((-5:ℚ) < 40 ∧ getScoreRating (-5) =
      ⟨"Poor", "var(--error)", "var(--error-light)"⟩) ∧
    (80 ≤ (150:ℚ) ∧ getScoreRating 150 =
      ⟨"Excellent", "var(--success)", "var(--success-light)"⟩) :=
  ⟨⟨by norm_num, (claimC10_rating_total (-5)).1 (by norm_num)⟩,
   ⟨by norm_num, (claimC10_rating_total 150).2.1 (by norm_num)⟩⟩

/-- C2: for every list of categories with non-negative weights (the data
model's invariant) and every status map, `calculateOverallScore` equals the
reference of spec 4.2: categories whose category score is "no score" are
skipped from both the weighted-sum numerator and the weight denominator, the
result is `none` exactly when no category produced a score or the weights of
the scored categories sum to zero, and otherwise it is
`round(100 * sum(weight_i * score_i / 100) / sum(weight_i))` over only the
scored categories. -/
theorem claimC2_overallScore_matches_reference (cats : List Category)
    (m : StatusMap) (hw : ∀ cat ∈ cats, 0 ≤ cat.weight) :
    calculateOverallScore cats m = refOverallScore cats m :=
  calculateOverallScore_eq_ref cats m hw

/-- Witness for C2 at a two-category example. -/
theorem claimC2_overallScore_matches_reference_witness :
    (∀ cat ∈ exCatsC2, 0 ≤ cat.weight) ∧
    calculateOverallScore exCatsC2 exMapC2 = refOverallScore exCatsC2 exMapC2 := by
  have hw : ∀ cat ∈ exCatsC2, 0 ≤ cat.weight := by
    intro cat hc
    fin_cases hc <;> norm_num [exCatsC2]
  exact ⟨hw, claimC2_overallScore_matches_reference exCatsC2 exMapC2 hw⟩

/-- C5: monotonicity — flipping one check's status from fail to pass while
holding every other entry fixed never moves a category or overall result
between "no score" and scored, never decreases the category score of any
check list, and (for the data model's non-negative category weights) never
decreases the overall score. -/
theorem claimC5_flip_fail_to_pass_monotone (checks : List Check)
    (cats : List Category) (m : StatusMap) (k : String) (s1 s2 t1 t2 : ℤ)
    (hm : m k = some CheckStatus.fail)
    (hw : ∀ cat ∈ cats, 0 ≤ cat.weight)
    (hc1 : calculateCategoryScore checks m = some s1)
    (hc2 : calculateCategoryScore checks (statusSet m k CheckStatus.pass) = some s2)
    (ho1 : calculateOverallScore cats m = some t1)
    (ho2 : calculateOverallScore cats (statusSet m k CheckStatus.pass) = some t2) :
    s1 ≤ s2 ∧ t1 ≤ t2 ∧
    (calculateCategoryScore checks (statusSet m k CheckStatus.pass)).isSome
      = (calculateCategoryScore checks m).isSome ∧
    (calculateOverallScore cats (statusSet m k CheckStatus.pass)).isSome
      = (calculateOverallScore cats m).isSome :=
  ⟨calculateCategoryScore_flip_le hm checks hc1 hc2,
   calculateOverallScore_flip_le hm cats hw ho1 ho2,
   calculateCategoryScore_flip_isSome hm checks,
   calculateOverallScore_flip_isSome hm cats hw⟩

/-- Witness for C5: one critical check flipped from fail (score 0) to pass
(score 100). -/
theorem claimC5_flip_fail_to_pass_monotone_witness :
    exMapC5 "a" = some CheckStatus.fail ∧
    calculateCategoryScore exChecksC5 exMapC5 = some 0 ∧
    calculateCategoryScore exChecksC5 (statusSet exMapC5 "a" CheckStatus.pass) = some 100 ∧
    calculateOverallScore exCatsC5 exMapC5 = some 0 ∧
    calculateOverallScore exCatsC5 (statusSet exMapC5 "a" CheckStatus.pass) = some 100 ∧
    (0:ℤ) ≤ 100 := by
  have hm : exMapC5 "a" = some CheckStatus.fail := by simp [exMapC5]
  have hw : ∀ cat ∈ exCatsC5, 0 ≤ cat.weight := by
    intro cat hc
    fin_cases hc
    norm_num [exCatsC5]
  have hc1 : calculateCategoryScore exChecksC5 exMapC5 = some 0 := by
    simp [calculateCategoryScore, categoryAcc, exChecksC5, exMapC5,
      importanceMultipliers, statusScores, jsRound]
    norm_num
  have hc2 : calculateCategoryScore exChecksC5 (statusSet exMapC5 "a" CheckStatus.pass)
      = some 100 := by
    simp [calculateCategoryScore, categoryAcc, exChecksC5, exMapC5, statusSet,
      importanceMultipliers, statusScores, jsRound]
    norm_num
  have ho1 : calculateOverallScore exCatsC5 exMapC5 = some 0 := by
    simp [calculateOverallScore, overallAcc, exCatsC5, hc1, jsRound]
    norm_num
  have ho2 : calculateOverallScore exCatsC5 (statusSet exMapC5 "a" CheckStatus.pass)
      = some 100 := by
    simp [calculateOverallScore, overallAcc, exCatsC5, hc2, jsRound]
    norm_num
  exact ⟨hm, hc1, hc2, ho1, ho2,
    (claimC5_flip_fail_to_pass_monotone exChecksC5 exCatsC5 exMapC5 "a" 0 100 0 100
      hm hw hc1 hc2 ho1 ho2).1⟩

/-- C6: status-map entries whose key is not the id of any check in the list
are ignored — adding such an entry (with any status value) or removing such
a key changes neither `calculateCategoryScore` nor `calculateOverallScore`,
and causes no failure: the engine iterates registry checks, not status-map
keys. -/
theorem claimC6_unknown_ids_ignored (checks : List Check) (cats : List Category)
    (m : StatusMap) (k : String) (v : CheckStatus)
    (h1 : ∀ c ∈ checks, c.id ≠ k)
    (h2 : ∀ cat ∈ cats, ∀ c ∈ cat.checks, c.id ≠ k) :
    calculateCategoryScore checks (statusSet m k v) = calculateCategoryScore checks m ∧
    calculateCategoryScore checks (statusRemove m k) = calculateCategoryScore checks m ∧
    calculateOverallScore cats (statusSet m k v) = calculateOverallScore cats m ∧
    calculateOverallScore cats (statusRemove m k) = calculateOverallScore cats m := by
  refine ⟨?_, ?_, ?_, ?_⟩
  · exact calculateCategoryScore_congr checks (fun c hc => by
      simp [statusSet, h1 c hc])
  · exact calculateCategoryScore_congr checks (fun c hc => by
      simp [statusRemove, h1 c hc])
  · exact calculateOverallScore_congr cats (fun cat hcat c hc => by
      simp [statusSet, h2 cat hcat c hc])
  · exact calculateOverallScore_congr cats (fun cat hcat c hc => by
      simp [statusRemove, h2 cat hcat c hc])

/-- Witness for C6 at an unknown key "zzz". -/
theorem claimC6_unknown_ids_ignored_witness :
    (∀ c ∈ exChecksC5, c.id ≠ "zzz") ∧
    (∀ cat ∈ exCatsC5, ∀ c ∈ cat.checks, c.id ≠ "zzz") ∧
    calculateCategoryScore exChecksC5 (statusSet exMapC5 "zzz" CheckStatus.pass)
      = calculateCategoryScore exChecksC5 exMapC5 ∧
    calculateOverallScore exCatsC5 (statusRemove exMapC5 "zzz")
      = calculateOverallScore exCatsC5 exMapC5 := by
  have h1 : ∀ c ∈ exChecksC5, c.id ≠ "zzz" := by
    intro c hc
    fin_cases hc
    simp [exChecksC5]
  have h2 : ∀ cat ∈ exCatsC5, ∀ c ∈ cat.checks, c.id ≠ "zzz" := by
    intro cat hcat
    fin_cases hcat
    exact h1
  obtain ⟨ha, _, _, hd⟩ :=
    claimC6_unknown_ids_ignored exChecksC5 exCatsC5 exMapC5 "zzz" CheckStatus.pass h1 h2
  exact ⟨h1, h2, ha, hd⟩

/-- C7: both scoring functions round their final fraction times 100 to the
nearest integer with exact halves rounded away from zero (on the
non-negative fractions the engine produces, JS `Math.round` agrees with the
ties-away-from-zero rule): an exact 37.5 rounds to 38, and the same rule is
used by both functions. -/
theorem claimC7_rounding_ties_away (checks : List Check) (cats : List Category)
    (m : StatusMap) (s t : ℤ)
    (hs : calculateCategoryScore checks m = some s)
    (hw : ∀ cat ∈ cats, 0 ≤ cat.weight)
    (ht : calculateOverallScore cats m = some t) :
    s = roundHalfAwayFromZero
      ((refEarnedWeight checks m : ℚ) / (refTotalWeight checks m : ℚ) * 100) ∧
    t = roundHalfAwayFromZero
      (refWeightedScore cats m / refOverallWeight cats m * 100) ∧
    roundHalfAwayFromZero (75 / 2 : ℚ) = 38 := by
  refine ⟨?_, ?_, ?_⟩
  · rw [calculateCategoryScore_eq_ref, refCategoryScore] at hs
    by_cases hany : checks.any (answered m) = true
    · rw [if_pos hany] at hs
      injection hs with hs
      rw [← hs]
      congr 1
      ring
    · rw [if_neg hany] at hs
      simp at hs
  · rw [calculateOverallScore_eq_ref cats m hw, refOverallScore] at ht
    by_cases hc : (scoredList cats m = [] ∨ refOverallWeight cats m = 0)
    · rw [if_pos hc] at ht
      simp at ht
    · rw [if_neg hc] at ht
      injection ht with ht
      rw [← ht]
  · norm_num [roundHalfAwayFromZero]

/-- Witness for C7: a category whose weighted fraction is exactly 37.5%,
scored 38 by both functions. -/
theorem claimC7_rounding_ties_away_witness :
    calculateCategoryScore exChecksC7 exMapC7 = some 38 ∧
    (∀ cat ∈ exCatsC7, 0 ≤ cat.weight) ∧
    calculateOverallScore exCatsC7 exMapC7 = some 38 ∧
    (38:ℤ) = roundHalfAwayFromZero
      ((refEarnedWeight exChecksC7 exMapC7 : ℚ) /
        (refTotalWeight exChecksC7 exMapC7 : ℚ) * 100) := by
  have hs : calculateCategoryScore exChecksC7 exMapC7 = some 38 := by
    simp [calculateCategoryScore, categoryAcc, exChecksC7, exMapC7,
      importanceMultipliers, statusScores, jsRound]
    norm_num
  have hw : ∀ cat ∈ exCatsC7, 0 ≤ cat.weight := by
    intro cat hc
    fin_cases hc
    norm_num [exCatsC7]
  have ht : calculateOverallScore exCatsC7 exMapC7 = some 38 := by
    simp [calculateOverallScore, overallAcc, exCatsC7, hs, jsRound]
    norm_num
  exact ⟨hs, hw, ht,
    (claimC7_rounding_ties_away exChecksC7 exCatsC7 exMapC7 38 38 hs hw ht).1⟩

/-- C8: when exactly one category yields a numeric category score and that
category's weight is positive, `calculateOverallScore` equals that
category's score exactly. -/
theorem claimC8_single_scored_category (cats : List Category) (m : StatusMap)
    (w : ℚ) (s : ℤ) (h : scoredList cats m = [(w, s)]) (hw : 0 < w) :
    calculateOverallScore cats m = some s := by
  have hw0 : w ≠ 0 := ne_of_gt hw
  have hW : refOverallWeight cats m = w := by
    unfold refOverallWeight
    rw [h]
    simp
  have hS : refWeightedScore cats m = w * ((s:ℚ) / 100) := by
    unfold refWeightedScore
    rw [h]
    simp
  unfold calculateOverallScore
  rw [overallAcc_foldl]
  simp only [zero_add, Bool.false_or, hW, hS, h]
  rw [if_neg]
  · congr 1
    have hv : w * ((s:ℚ) / 100) / w * 100 = (s:ℚ) := by
      field_simp
      ring
    rw [hv, jsRound_intCast]
  · rintro (hc | hc)
    · simp at hc
    · exact hw0 hc

/-- Witness for C8: weights 20 and 10, category A scored 80, category B
"no score"; the overall score is 80. -/
theorem claimC8_single_scored_category_witness :
    scoredList exCatsC8 exMapC8 = [(20, 80)] ∧ (0:ℚ) < 20 ∧
    calculateOverallScore exCatsC8 exMapC8 = some 80 := by
  have h : scoredList exCatsC8 exMapC8 = [(20, 80)] := by
    simp [scoredList, exCatsC8, exMapC8, calculateCategoryScore, categoryAcc,
      importanceMultipliers, statusScores, jsRound]
    norm_num
  exact ⟨h, by norm_num,
    claimC8_single_scored_category exCatsC8 exMapC8 20 80 h (by norm_num)⟩

end SeoAudit
